import Mathlib

/-!
Verification development for the flight-schedule parser and query tool
(`flight_tool.py`).  The Python source is shallowly embedded: each Python
function becomes a computable Lean definition over explicit data
(rows are association lists from field names to optional strings, CPython's
`strptime`/`strftime` on the `%Y-%m-%d %H:%M` format are modelled
character-by-character after the stdlib `_strptime` regular expressions,
and Python `float(...)` is modelled as exact decimal/rational conversion
extended with the special `inf`/`nan` forms).  Text handling is modelled
over the ASCII range (the repository's data is ASCII throughout).
-/

namespace FlightTool

/-- ASCII whitespace as recognised by Python's `str.strip` and the regex
class matched for whitespace in a `strptime` format string (the model is
restricted to the ASCII part of those classes). -/
def isPyWs (c : Char) : Bool :=
  c = ' ' || c = '\t' || c = '\n' || c = '\x0d' || c = '\x0b' || c = '\x0c'

/-- Numeric value of an ASCII digit character. -/
def digVal (c : Char) : Nat := c.toNat - 48

/-- The decimal digit character for `n ≤ 9` (clamped at `9` above). -/
def dChar (n : Nat) : Char :=
  match n with
  | 0 => '0' | 1 => '1' | 2 => '2' | 3 => '3' | 4 => '4'
  | 5 => '5' | 6 => '6' | 7 => '7' | 8 => '8' | _ => '9'

/-- `str.strip()` on a character list: drop leading and trailing whitespace. -/
def pyStripL (cs : List Char) : List Char :=
  ((cs.dropWhile isPyWs).reverse.dropWhile isPyWs).reverse

/-- `str.strip()` on strings. -/
def pyStrip (s : String) : String := String.mk (pyStripL s.data)

/-- A parsed `datetime` value at minute resolution, as produced by
`datetime.strptime(s, "%Y-%m-%d %H:%M")`. -/
structure DateTime where
  y : Nat
  m : Nat
  d : Nat
  h : Nat
  mi : Nat
  deriving DecidableEq, Repr

/-- Injective (on in-range values) linearisation of a `DateTime`; Python's
`datetime` comparison is lexicographic on the components, which on the
bounded ranges produced by parsing agrees with comparison of this key. -/
def DateTime.key (t : DateTime) : Nat :=
  (((t.y * 13 + t.m) * 32 + t.d) * 24 + t.h) * 60 + t.mi

/-- Gregorian leap-year rule used by Python's `datetime`. -/
def isLeap (y : Nat) : Bool :=
  y % 4 == 0 && (y % 100 != 0 || y % 400 == 0)

/-- Days in a month, as enforced by `datetime`'s constructor. -/
def daysInMonth (y m : Nat) : Nat :=
  if m = 2 then (if isLeap y then 29 else 28)
  else if m = 4 || m = 6 || m = 9 || m = 11 then 30
  else 31

/-- The component ranges `datetime.strptime` can actually produce for the
`%Y-%m-%d %H:%M` format. -/
def validDT (t : DateTime) : Prop :=
  1 ≤ t.y ∧ t.y ≤ 9999 ∧ 1 ≤ t.m ∧ t.m ≤ 12 ∧
  1 ≤ t.d ∧ t.d ≤ daysInMonth t.y t.m ∧ t.h ≤ 23 ∧ t.mi ≤ 59

instance (t : DateTime) : Decidable (validDT t) := by
  unfold validDT; infer_instance

/-! ### The `strptime` grammar, component by component

CPython's `_strptime` compiles `"%Y-%m-%d %H:%M"` to the regex
`(\d\d\d\d)-(1[0-2]|0[1-9]|[1-9])-(3[0-1]|[1-2]\d|0[1-9]|[1-9]| [1-9])\s+(2[0-3]|[0-1]\d|\d):([0-5]\d|\d)`
anchored at the start, and rejects the input if characters remain after the
match; the `datetime` constructor then validates the year (≥ 1) and the
day-of-month.  Because each numeric group is followed by a non-digit
(separator or end of input), the backtracking regex match is equivalent to
the deterministic longest-first tokenizers below. -/

/-- `%Y`: exactly four digits. -/
def parseYear4 : List Char → Option (Nat × List Char)
  | c1 :: c2 :: c3 :: c4 :: rest =>
    if c1.isDigit && c2.isDigit && c3.isDigit && c4.isDigit then
      some (1000 * digVal c1 + 100 * digVal c2 + 10 * digVal c3 + digVal c4, rest)
    else none
  | _ => none

/-- `%m`: `1[0-2]|0[1-9]|[1-9]`, followed in the format by `-`. -/
def parseMonth : List Char → Option (Nat × List Char)
  | c1 :: c2 :: rest =>
    if c1.isDigit && c2.isDigit then
      if 1 ≤ 10 * digVal c1 + digVal c2 && 10 * digVal c1 + digVal c2 ≤ 12 then
        some (10 * digVal c1 + digVal c2, rest)
      else none
    else if c1.isDigit && 1 ≤ digVal c1 then some (digVal c1, c2 :: rest)
    else none
  | [c1] => if c1.isDigit && 1 ≤ digVal c1 then some (digVal c1, []) else none
  | [] => none

/-- `%d`: `3[0-1]|[1-2]\d|0[1-9]|[1-9]| [1-9]`, followed by whitespace. -/
def parseDay : List Char → Option (Nat × List Char)
  | c1 :: c2 :: rest =>
    if c1.isDigit && c2.isDigit then
      if 1 ≤ 10 * digVal c1 + digVal c2 && 10 * digVal c1 + digVal c2 ≤ 31 then
        some (10 * digVal c1 + digVal c2, rest)
      else none
    else if c1.isDigit && 1 ≤ digVal c1 then some (digVal c1, c2 :: rest)
    else if c1 = ' ' && c2.isDigit && 1 ≤ digVal c2 then some (digVal c2, rest)
    else none
  | [c1] => if c1.isDigit && 1 ≤ digVal c1 then some (digVal c1, []) else none
  | [] => none

/-- The `\s+` a literal space in the format compiles to. -/
def parseWs1 : List Char → Option (List Char)
  | c :: rest => if isPyWs c then some (rest.dropWhile isPyWs) else none
  | [] => none

/-- `%H`: `2[0-3]|[0-1]\d|\d`, followed by `:`. -/
def parseHour : List Char → Option (Nat × List Char)
  | c1 :: c2 :: rest =>
    if c1.isDigit && c2.isDigit then
      if 10 * digVal c1 + digVal c2 ≤ 23 then
        some (10 * digVal c1 + digVal c2, rest)
      else none
    else if c1.isDigit then some (digVal c1, c2 :: rest)
    else none
  | [c1] => if c1.isDigit then some (digVal c1, []) else none
  | [] => none

/-- `%M` at the end of the format: `[0-5]\d|\d`, and `strptime` rejects the
input when any character remains unconsumed. -/
def parseMinEnd : List Char → Option Nat
  | [c1] => if c1.isDigit then some (digVal c1) else none
  | [c1, c2] =>
    if c1.isDigit && c2.isDigit then
      if 10 * digVal c1 + digVal c2 ≤ 59 then
        some (10 * digVal c1 + digVal c2)
      else none
    else none
  | _ => none

/-- Consume one required literal character (a separator of the format). -/
def expectChar (c : Char) : List Char → Option (List Char)
  | x :: r => if x = c then some r else none
  | [] => none

/-- `datetime.strptime(s, "%Y-%m-%d %H:%M")` on an exact character list:
the regex match must consume the whole input (each literal separator is a
required character, `parseMinEnd` demands the rest be exactly the minute
token), the year must be at least 1 (the `datetime` range check) and the
day must exist in the month. -/
def strptimeYmdHM (cs : List Char) : Option DateTime :=
  (parseYear4 cs).bind fun (y, r1) =>
  (expectChar '-' r1).bind fun r2 =>
  (parseMonth r2).bind fun (m, r3) =>
  (expectChar '-' r3).bind fun r4 =>
  (parseDay r4).bind fun (d, r5) =>
  (parseWs1 r5).bind fun r6 =>
  (parseHour r6).bind fun (h, r7) =>
  (expectChar ':' r7).bind fun r8 =>
  (parseMinEnd r8).bind fun mi =>
  if 1 ≤ y ∧ d ≤ daysInMonth y m then some ⟨y, m, d, h, mi⟩ else none

/-- `parse_iso_datetime` from `flight_tool.py`: strip, reject the empty
string with `ValueError("empty datetime")`, otherwise `strptime` with the
fixed error message on failure.  A raised `ValueError` is modelled as
`Except.error` carrying the exception's message. -/
def parse_iso_datetime (s : String) : Except String DateTime :=
  let t := pyStrip s
  if t.data.isEmpty then .error "empty datetime"
  else
    match strptimeYmdHM t.data with
    | some dt => .ok dt
    | none =>
      .error ("invalid datetime format (expected \x27YYYY-MM-DD HH:MM\x27): " ++ t)

/-! ### `strftime` on the same format -/

/-- Two-digit zero-padded rendering (the C `%m`/`%d`/`%H`/`%M` conversions);
meaningful for `n ≤ 99`, the only values that reach it. -/
def pad2C (n : Nat) : List Char := [dChar (n / 10), dChar (n % 10)]

/-- The `%Y` conversion as the reference platform's C library renders it:
the year as an UNPADDED decimal number (glibc does not zero-pad `%Y`, so
year 999 renders as `"999"`).  Defined for the `datetime` year range
0 < y ≤ 9999. -/
def yearChars (y : Nat) : List Char :=
  if y < 10 then [dChar y]
  else if y < 100 then [dChar (y / 10), dChar (y % 10)]
  else if y < 1000 then [dChar (y / 100), dChar (y / 10 % 10), dChar (y % 10)]
  else [dChar (y / 1000 % 10), dChar (y / 100 % 10), dChar (y / 10 % 10), dChar (y % 10)]

/-- `dt.strftime("%Y-%m-%d %H:%M")` as observed on the reference platform. -/
def pyStrftime (t : DateTime) : String :=
  String.mk (yearChars t.y ++ '-' :: pad2C t.m ++ '-' :: pad2C t.d ++
    ' ' :: pad2C t.h ++ ':' :: pad2C t.mi)

/-! ### Python `float(...)` -/

/-- The value space of Python `float(...)` as far as the validator's sign
test can observe it: a finite value (modelled exactly as a fraction
`n / d` with `d` a positive power of ten, i.e. ignoring binary rounding),
an infinity of either sign, or a NaN. -/
inductive PyFloat where
  | num (n : Int) (d : Nat)
  | inf
  | ninf
  | nan
  deriving DecidableEq, Repr

/-- Python's `x <= 0` on a float: false for NaN (every comparison with a
NaN is false) and for positive values; the denominator of a finite value
is a positive power of ten, so only the numerator's sign matters. -/
def PyFloat.leZero : PyFloat → Bool
  | .num n _ => n ≤ 0
  | .inf => false
  | .ninf => true
  | .nan => false

/-- Python's `x > 0` on a float: false for NaN. -/
def PyFloat.gtZero : PyFloat → Bool
  | .num n _ => 0 < n
  | .inf => true
  | .ninf => false
  | .nan => false

/-- Numeric value of a digit list, most significant first. -/
def digitsVal (cs : List Char) : Nat := cs.foldl (fun a c => 10 * a + digVal c) 0

/-- Optional exponent part `([eE][+-]?digits+)?` at the end of a float
literal, applied to an exact mantissa `sgn * mant / 10^scale`. -/
def parseFloatExp (sgn : Int) (mant : Nat) (scale : Nat) : List Char → Option PyFloat
  | [] => some (.num (sgn * mant) (10 ^ scale))
  | e :: rest =>
    if e = 'e' || e = 'E' then
      let (esgn, rest') : Int × List Char :=
        match rest with
        | '+' :: t => (1, t)
        | '-' :: t => (-1, t)
        | _ => (1, rest)
      let (ds, rest'') := rest'.span Char.isDigit
      if ds.isEmpty || !rest''.isEmpty then none
      else
        let ev := digitsVal ds
        if esgn ≥ 0 then some (.num (sgn * mant * 10 ^ ev) (10 ^ scale))
        else some (.num (sgn * mant) (10 ^ scale * 10 ^ ev))
    else none

/-- Python `float(s)` on an already-stripped string, modelled over ASCII
decimal literals (`[+-]? (digits [. digits?] | . digits) ([eE][+-]?digits)?`)
and the special case-insensitive forms `inf`, `infinity` and `nan`; digit
grouping underscores and non-ASCII digits are outside the model, and the
decimal-to-binary rounding of CPython is idealised as exact rational
conversion. -/
def parsePyFloat (s : String) : Option PyFloat :=
  let cs := s.data
  let (sgn, cs1) : Int × List Char :=
    match cs with
    | '+' :: t => (1, t)
    | '-' :: t => (-1, t)
    | _ => (1, cs)
  let low := cs1.map Char.toLower
  if low = "inf".data || low = "infinity".data then
    some (if sgn ≥ 0 then .inf else .ninf)
  else if low = "nan".data then some .nan
  else
    let (ip, cs2) := cs1.span Char.isDigit
    match cs2 with
    | '.' :: cs3 =>
      let (fp, cs4) := cs3.span Char.isDigit
      if ip.isEmpty && fp.isEmpty then none
      else parseFloatExp sgn (digitsVal (ip ++ fp)) fp.length cs4
    | _ =>
      if ip.isEmpty then none else parseFloatExp sgn (digitsVal ip) 0 cs2

/-! ### Rows and the validator -/

/-- A raw CSV row as handed to `validate_row` by `csv.DictReader`: a
mapping (association list with the dict's insertion order) from field name
to a string value or `None`. -/
def Row : Type := List (String × Option String)

instance : DecidableEq Row := by unfold Row; infer_instance

/-- Dict lookup: `row[f]` / `f in row`. -/
def rowFind (row : Row) (k : String) : Option (Option String) :=
  (row.find? (fun kv => kv.1 == k)).map (fun kv => kv.2)

/-- `str(row.get(f, ""))` at the call sites that run after the presence
check has ensured a non-`None` string value. -/
def getStr (row : Row) (k : String) : String :=
  match rowFind row k with
  | some (some v) => v
  | _ => ""

/-- Line 41 of the source: `f not in row or row[f] is None or
str(row[f]).strip() == ""`. -/
def fieldMissing (row : Row) (f : String) : Bool :=
  match rowFind row f with
  | none => true
  | some none => true
  | some (some v) => pyStrip v == ""

/-- `REQUIRED_FIELDS` from the source, in order. -/
def REQUIRED_FIELDS : List String :=
  ["flight_id", "origin", "destination", "departure_datetime",
   "arrival_datetime", "price"]

/-- `2 <= len(fid) <= 8 and fid.isalnum()` (ASCII alphanumerics). -/
def fidOk (s : String) : Bool :=
  2 ≤ s.length && s.length ≤ 8 && s.data.all Char.isAlphanum

/-- `len(s) == 3 and s.isalpha() and s.isupper()` (ASCII letters). -/
def iataOk (s : String) : Bool :=
  s.length == 3 && s.data.all Char.isAlpha && s.data.all Char.isUpper

/-- A normalized flight record: the six canonical fields plus the
passed-through extra fields in row order. -/
structure Flight where
  flight_id : String
  origin : String
  destination : String
  departure_datetime : String
  arrival_datetime : String
  price : PyFloat
  extras : List (String × String)
  deriving DecidableEq, Repr

/-- The `for k, v in row.items()` passthrough loop at the end of
`validate_row`: skip `None` values, keys already in the flight dict (the
six canonical keys plus extras added earlier in this loop), and values
that strip to empty; otherwise store the stripped value. -/
def extrasLoop : Row → List String → List (String × String)
  | [], _ => []
  | (k, v?) :: rest, seen =>
    match v? with
    | none => extrasLoop rest seen
    | some v =>
      if seen.contains k then extrasLoop rest seen
      else
        let s := pyStrip v
        if s == "" then extrasLoop rest seen
        else (k, s) :: extrasLoop rest (seen ++ [k])

/-- The extra fields of a row: canonical keys are always "already in the
flight dict" when the loop runs. -/
def rowExtras (row : Row) : List (String × String) :=
  extrasLoop row REQUIRED_FIELDS

/-- `validate_row(row, file, lineno)`: returns `(flight, "")` on success
and `(None, message)` on rejection, exactly mirroring the source's
fail-fast sequence (presence, flight_id shape, origin, destination,
datetime parses, temporal order, price).  `file` and `lineno` are accepted
and, as in the source, unused. -/
def validate_row (row : Row) (file : String) (lineno : Nat) :
    Option Flight × String :=
  match REQUIRED_FIELDS.find? (fieldMissing row) with
  | some f => (none, "missing required field \x27" ++ f ++ "\x27")
  | none =>
    let fid := pyStrip (getStr row "flight_id")
    if fidOk fid then
      let origin := pyStrip (getStr row "origin")
      let dest := pyStrip (getStr row "destination")
      if iataOk origin then
        if iataOk dest then
          match parse_iso_datetime (getStr row "departure_datetime") with
          | .error e => (none, "departure_datetime parse error: " ++ e)
          | .ok dep =>
            match parse_iso_datetime (getStr row "arrival_datetime") with
            | .error e => (none, "arrival_datetime parse error: " ++ e)
            | .ok arr =>
              if arr.key ≤ dep.key then
                (none, "arrival_datetime must be after departure_datetime")
              else
                match parsePyFloat (pyStrip (getStr row "price")) with
                | none => (none, "price must be a positive float")
                | some price =>
                  if price.leZero then (none, "price must be a positive number")
                  else
                    (some ⟨fid, origin, dest, pyStrftime dep, pyStrftime arr,
                      price, rowExtras row⟩, "")
        else (none, "destination must be 3 uppercase letters")
      else (none, "origin must be 3 uppercase letters")
    else (none, "flight_id must be 2-8 alphanumeric characters")

/-! ### `parse_csv_files` -/

/-- Python `repr` of an optional string value (model: no escaping inside
the value, as the repository's data contains neither quotes nor
backslashes). -/
def reprOpt : Option String → String
  | none => "None"
  | some v => "\x27" ++ v ++ "\x27"

/-- Python `repr` of a row dict, as interpolated into an error line. -/
def pyReprRow (row : Row) : String :=
  "\x7b" ++
    String.intercalate ", "
      (row.map (fun kv => "\x27" ++ kv.1 ++ "\x27: " ++ reprOpt kv.2)) ++
  "\x7d"

/-- The error line `f"{p}:{lineno}: {err} -- {row}"` for a rejected row. -/
def errLine (p : String) (lineno : Nat) (err : String) (row : Row) : String :=
  p ++ ":" ++ toString lineno ++ ": " ++ err ++ " -- " ++ pyReprRow row

/-- One CSV source as `parse_csv_files` can experience it: readable with a
list of data rows; `FileNotFoundError` on open; or some other exception
raised after `pre` rows were already consumed (e.g. a decode error
mid-file). -/
inductive Src where
  | ok (path : String) (rows : List Row)
  | notFound (path : String)
  | readError (path : String) (pre : List Row) (msg : String)
  deriving DecidableEq

/-- The inner `for lineno, row in enumerate(reader, start=2)` loop with its
two accumulators. -/
def parseRowsLoop (p : String) (lineno : Nat) (rows : List Row)
    (valid : List Flight) (errors : List String) :
    List Flight × List String :=
  match rows with
  | [] => (valid, errors)
  | r :: rest =>
    match validate_row r p lineno with
    | (some fl, _) => parseRowsLoop p (lineno + 1) rest (valid ++ [fl]) errors
    | (none, err) =>
      parseRowsLoop p (lineno + 1) rest valid (errors ++ [errLine p lineno err r])

/-- The outer `for p in paths` loop of `parse_csv_files`. -/
def parseSrcsLoop (srcs : List Src) (valid : List Flight)
    (errors : List String) : List Flight × List String :=
  match srcs with
  | [] => (valid, errors)
  | .ok p rows :: rest =>
    let (v, e) := parseRowsLoop p 2 rows valid errors
    parseSrcsLoop rest v e
  | .notFound p :: rest =>
    parseSrcsLoop rest valid (errors ++ ["file not found: " ++ p])
  | .readError p pre msg :: rest =>
    let (v, e) := parseRowsLoop p 2 pre valid errors
    parseSrcsLoop rest v (e ++ [p ++ ": error reading file: " ++ msg])

/-- `parse_csv_files(paths)` over the abstracted sources. -/
def parse_csv_files (srcs : List Src) : List Flight × List String :=
  parseSrcsLoop srcs [] []

/-- The valid records one source contributes (specification-side
decomposition, to be compared with the loop above). -/
def srcValidOf : Src → List Flight
  | .ok p rows => (parseRowsLoop p 2 rows [] []).1
  | .readError p pre _ => (parseRowsLoop p 2 pre [] []).1
  | .notFound _ => []

/-- The error lines one source contributes. -/
def srcErrsOf : Src → List String
  | .ok p rows => (parseRowsLoop p 2 rows [] []).2
  | .notFound p => ["file not found: " ++ p]
  | .readError p pre msg =>
    (parseRowsLoop p 2 pre [] []).2 ++ [p ++ ": error reading file: " ++ msg]

/-! ### Queries -/

/-- A record as the query evaluator sees it: a string-keyed mapping with
text values (records loaded back from the JSON store). -/
def Rec : Type := List (String × String)

instance : DecidableEq Rec := by unfold Rec; infer_instance

/-- `f.get(k, "")`. -/
def recGet (r : Rec) (k : String) : String :=
  match r.find? (fun kv => kv.1 == k) with
  | some kv => kv.2
  | none => ""

/-- `f[k]`, with `KeyError` surfaced as an `Except.error`. -/
def recIdx (r : Rec) (k : String) : Except String String :=
  match r.find? (fun kv => kv.1 == k) with
  | some kv => .ok kv.2
  | none => .error ("KeyError: " ++ k)

/-- One query object from the queries JSON file. -/
structure Query where
  filt : List (String × String)
  departure_between : Option (String × String)
  arrival_before : Option String
  arrival_after : Option String
  name : Option String
  deriving DecidableEq

/-- The `for k, v in filt.items()` loop: sequential narrowing by
case-insensitive equality `str(f.get(k, "")).lower() == str(v).lower()`. -/
def applyEqFilters (recs : List Rec) : List (String × String) → List Rec
  | [] => recs
  | (k, v) :: rest =>
    applyEqFilters
      (recs.filter (fun r => (recGet r k).toLower == v.toLower)) rest

/-- A Python list comprehension whose predicate may raise: the first raise
aborts the whole comprehension. -/
def filterE (f : Rec → Except String Bool) : List Rec → Except String (List Rec)
  | [] => .ok []
  | r :: rest =>
    match f r with
    | .error e => .error e
    | .ok true => (filterE f rest).map (fun l => r :: l)
    | .ok false => filterE f rest

/-- Predicate of the `departure_between` comprehension:
`start_dt <= parse_iso_datetime(f["departure"]) <= end_dt`.  Note the
source indexes the record at key `"departure"`, not
`"departure_datetime"`. -/
def depBetweenPred (startDt endDt : DateTime) (r : Rec) : Except String Bool :=
  match recIdx r "departure" with
  | .error e => .error e
  | .ok s =>
    match parse_iso_datetime s with
    | .error e => .error e
    | .ok dv => .ok (startDt.key ≤ dv.key && dv.key ≤ endDt.key)

/-- Predicate of the `arrival_before` comprehension:
`parse_iso_datetime(f["arrival"]) <= end_dt`. -/
def arrBeforePred (endDt : DateTime) (r : Rec) : Except String Bool :=
  match recIdx r "arrival" with
  | .error e => .error e
  | .ok s =>
    match parse_iso_datetime s with
    | .error e => .error e
    | .ok dv => .ok (dv.key ≤ endDt.key)

/-- Predicate of the `arrival_after` comprehension:
`parse_iso_datetime(f["arrival"]) >= start_dt`. -/
def arrAfterPred (startDt : DateTime) (r : Rec) : Except String Bool :=
  match recIdx r "arrival" with
  | .error e => .error e
  | .ok s =>
    match parse_iso_datetime s with
    | .error e => .error e
    | .ok dv => .ok (startDt.key ≤ dv.key)

/-- The `departure_between` stage of `apply_filters`. -/
def depBetweenStage (res : List Rec) :
    Option (String × String) → Except String (List Rec)
  | none => .ok res
  | some (s, t) =>
    match parse_iso_datetime s with
    | .error e => .error e
    | .ok startDt =>
      match parse_iso_datetime t with
      | .error e => .error e
      | .ok endDt => filterE (depBetweenPred startDt endDt) res

/-- The `arrival_before` stage. -/
def arrBeforeStage (res : List Rec) : Option String → Except String (List Rec)
  | none => .ok res
  | some s =>
    match parse_iso_datetime s with
    | .error e => .error e
    | .ok endDt => filterE (arrBeforePred endDt) res

/-- The `arrival_after` stage. -/
def arrAfterStage (res : List Rec) : Option String → Except String (List Rec)
  | none => .ok res
  | some s =>
    match parse_iso_datetime s with
    | .error e => .error e
    | .ok startDt => filterE (arrAfterPred startDt) res

/-- `apply_filters(flights, q)`: equality filters, then the three optional
range clauses in source order; any exception raised inside propagates. -/
def apply_filters (flights : List Rec) (q : Query) :
    Except String (List Rec) :=
  let res1 := applyEqFilters flights q.filt
  match depBetweenStage res1 q.departure_between with
  | .error e => .error e
  | .ok res2 =>
    match arrBeforeStage res2 q.arrival_before with
    | .error e => .error e
    | .ok res3 => arrAfterStage res3 q.arrival_after

/-- One per-query result object. -/
structure QueryResult where
  name : String
  count : Nat
  results : List Rec
  deriving DecidableEq

/-- `q.get("name") or f"q{qi}"`: the placeholder is used when the name is
absent (or `None`) and also when it is the falsy empty string. -/
def qNameOf (q : Query) (i : Nat) : String :=
  match q.name with
  | some s => if s == "" then "q" ++ toString i else s
  | none => "q" ++ toString i

/-- The `for qi, q in enumerate(data, start=1)` loop of `run_queries`;
an exception from `apply_filters` aborts the whole run. -/
def runQueriesLoop (flights : List Rec) (qs : List Query) (i : Nat) :
    Except String (List QueryResult) :=
  match qs with
  | [] => .ok []
  | q :: rest =>
    match apply_filters flights q with
    | .error e => .error e
    | .ok matched =>
      (runQueriesLoop flights rest (i + 1)).map
        (fun l => ⟨qNameOf q i, matched.length, matched⟩ :: l)

/-- `run_queries(flights, queries)` over an already-loaded query list. -/
def run_queries (flights : List Rec) (qs : List Query) :
    Except String (List QueryResult) :=
  runQueriesLoop flights qs 1

/-! ### Declarative characterization of the accepted datetime grammar -/

/-- A numeric token of one or two ASCII digits with value `v` (the
two-digit form covers the zero-padded case). -/
def numTok2 (v : Nat) (tok : List Char) : Prop :=
  (∃ c1 c2, tok = [c1, c2] ∧ c1.isDigit = true ∧ c2.isDigit = true ∧
    10 * digVal c1 + digVal c2 = v) ∨
  (∃ c, tok = [c] ∧ c.isDigit = true ∧ digVal c = v)

/-- A day token: one or two digits, or the `strptime` speciality of a
single space followed by a nonzero digit (the `" [1-9]"` alternative of
the `%d` regex). -/
def dayTok (v : Nat) (tok : List Char) : Prop :=
  numTok2 v tok ∨
  (∃ c, tok = [' ', c] ∧ c.isDigit = true ∧ digVal c = v ∧ 1 ≤ v)

/-- A year token: exactly four ASCII digits with value `y`. -/
def year4Tok (y : Nat) (tok : List Char) : Prop :=
  ∃ c1 c2 c3 c4, tok = [c1, c2, c3, c4] ∧
    c1.isDigit = true ∧ c2.isDigit = true ∧ c3.isDigit = true ∧
    c4.isDigit = true ∧
    1000 * digVal c1 + 100 * digVal c2 + 10 * digVal c3 + digVal c4 = y

/-- The exact language accepted by
`datetime.strptime(s, "%Y-%m-%d %H:%M")`, together with the parsed value:
a four-digit year, month and day and hour and minute tokens of one or two
digits (day also allowing the space-padded form), at least one whitespace
character between day and hour, in-range components and a day that exists
in the parsed month. -/
def DTGrammar (cs : List Char) (t : DateTime) : Prop :=
  validDT t ∧
  ∃ yt mt dt wt ht mit,
    year4Tok t.y yt ∧ numTok2 t.m mt ∧ dayTok t.d dt ∧
    wt ≠ [] ∧ (∀ c ∈ wt, isPyWs c = true) ∧
    numTok2 t.h ht ∧ numTok2 t.mi mit ∧
    cs = yt ++ '-' :: (mt ++ '-' :: (dt ++ (wt ++ (ht ++ ':' :: mit))))

/-- The strict canonical format the specification describes in §4.1 rule 4:
after trimming, exactly `YYYY-MM-DD HH:MM`, all components zero-padded,
with in-range values. -/
def strictCanonical (s : String) : Prop :=
  ∃ t, validDT t ∧
    (pyStrip s).data =
      [dChar (t.y / 1000), dChar (t.y / 100 % 10), dChar (t.y / 10 % 10),
        dChar (t.y % 10)] ++ '-' :: pad2C t.m ++ '-' :: pad2C t.d ++
        ' ' :: pad2C t.h ++ ':' :: pad2C t.mi

/-! ### Character-level helper lemmas -/

theorem isDigit_toNat {c : Char} (h : c.isDigit = true) :
    48 ≤ c.toNat ∧ c.toNat ≤ 57 := by
  simp [Char.isDigit] at h
  exact h

theorem digVal_le_9 {c : Char} (h : c.isDigit = true) : digVal c ≤ 9 := by
  have := isDigit_toNat h
  unfold digVal
  omega

theorem dChar_isDigit {n : Nat} (h : n ≤ 9) : (dChar n).isDigit = true := by
  interval_cases n <;> decide

theorem digVal_dChar {n : Nat} (h : n ≤ 9) : digVal (dChar n) = n := by
  interval_cases n <;> decide

theorem ws_not_digit {c : Char} (h : isPyWs c = true) : c.isDigit = false := by
  simp only [isPyWs, Bool.or_eq_true, decide_eq_true_eq] at h
  rcases h with ((((h | h) | h) | h) | h) | h <;> subst h <;> decide

theorem digit_not_ws {c : Char} (h : c.isDigit = true) : isPyWs c = false := by
  by_contra hne
  have : isPyWs c = true := by
    cases hw : isPyWs c
    · exact absurd hw hne
    · rfl
  rw [ws_not_digit this] at h
  exact Bool.false_ne_true h

/-! ### Soundness of the component parsers -/

theorem parseYear4_sound {cs r : List Char} {y : Nat}
    (h : parseYear4 cs = some (y, r)) :
    ∃ yt, cs = yt ++ r ∧ year4Tok y yt := by
  rcases cs with _ | ⟨c1, _ | ⟨c2, _ | ⟨c3, _ | ⟨c4, rest⟩⟩⟩⟩
  · exact Option.noConfusion h
  · exact Option.noConfusion h
  · exact Option.noConfusion h
  · exact Option.noConfusion h
  · simp only [parseYear4] at h
    split at h
    · rename_i hd
      simp only [Bool.and_eq_true] at hd
      obtain ⟨⟨⟨h1, h2⟩, h3⟩, h4⟩ := hd
      simp only [Option.some.injEq, Prod.mk.injEq] at h
      obtain ⟨hy, hr⟩ := h
      subst hr
      exact ⟨[c1, c2, c3, c4], by simp, c1, c2, c3, c4, rfl, h1, h2, h3, h4, hy⟩
    · exact Option.noConfusion h

theorem parseMonth_sound {cs r : List Char} {v : Nat}
    (h : parseMonth cs = some (v, r)) :
    ∃ mt, cs = mt ++ r ∧ numTok2 v mt ∧ 1 ≤ v ∧ v ≤ 12 := by
  rcases cs with _ | ⟨c1, _ | ⟨c2, rest⟩⟩
  · exact Option.noConfusion h
  · simp only [parseMonth] at h
    split at h
    · rename_i hd
      simp only [Bool.and_eq_true, decide_eq_true_eq] at hd
      simp only [Option.some.injEq, Prod.mk.injEq] at h
      obtain ⟨hv, hr⟩ := h
      subst hr
      refine ⟨[c1], by simp, Or.inr ⟨c1, rfl, hd.1, hv⟩, by omega, ?_⟩
      have := digVal_le_9 hd.1
      omega
    · exact Option.noConfusion h
  · simp only [parseMonth] at h
    split at h
    · rename_i hd
      simp only [Bool.and_eq_true] at hd
      split at h
      · rename_i hv
        simp only [Bool.and_eq_true, decide_eq_true_eq] at hv
        simp only [Option.some.injEq, Prod.mk.injEq] at h
        obtain ⟨hv', hr⟩ := h
        subst hr
        exact ⟨[c1, c2], by simp,
          Or.inl ⟨c1, c2, rfl, hd.1, hd.2, hv'⟩, by omega, by omega⟩
      · exact Option.noConfusion h
    · split at h
      · rename_i hd
        simp only [Bool.and_eq_true, decide_eq_true_eq] at hd
        simp only [Option.some.injEq, Prod.mk.injEq] at h
        obtain ⟨hv, hr⟩ := h
        subst hr
        refine ⟨[c1], by simp, Or.inr ⟨c1, rfl, hd.1, hv⟩, by omega, ?_⟩
        have := digVal_le_9 hd.1
        omega
      · exact Option.noConfusion h

theorem parseDay_sound {cs r : List Char} {v : Nat}
    (h : parseDay cs = some (v, r)) :
    ∃ dt, cs = dt ++ r ∧ dayTok v dt ∧ 1 ≤ v ∧ v ≤ 31 := by
  rcases cs with _ | ⟨c1, _ | ⟨c2, rest⟩⟩
  · exact Option.noConfusion h
  · simp only [parseDay] at h
    split at h
    · rename_i hd
      simp only [Bool.and_eq_true, decide_eq_true_eq] at hd
      simp only [Option.some.injEq, Prod.mk.injEq] at h
      obtain ⟨hv, hr⟩ := h
      subst hr
      refine ⟨[c1], by simp, Or.inl (Or.inr ⟨c1, rfl, hd.1, hv⟩), by omega, ?_⟩
      have := digVal_le_9 hd.1
      omega
    · exact Option.noConfusion h
  · simp only [parseDay] at h
    split at h
    · rename_i hd
      simp only [Bool.and_eq_true] at hd
      split at h
      · rename_i hv
        simp only [Bool.and_eq_true, decide_eq_true_eq] at hv
        simp only [Option.some.injEq, Prod.mk.injEq] at h
        obtain ⟨hv', hr⟩ := h
        subst hr
        exact ⟨[c1, c2], by simp,
          Or.inl (Or.inl ⟨c1, c2, rfl, hd.1, hd.2, hv'⟩), by omega, by omega⟩
      · exact Option.noConfusion h
    · split at h
      · rename_i hd
        simp only [Bool.and_eq_true, decide_eq_true_eq] at hd
        simp only [Option.some.injEq, Prod.mk.injEq] at h
        obtain ⟨hv, hr⟩ := h
        subst hr
        refine ⟨[c1], by simp, Or.inl (Or.inr ⟨c1, rfl, hd.1, hv⟩),
          by omega, ?_⟩
        have := digVal_le_9 hd.1
        omega
      · split at h
        · rename_i hd
          simp only [Bool.and_eq_true, decide_eq_true_eq] at hd
          obtain ⟨⟨hsp, hdig⟩, hv1⟩ := hd
          simp only [Option.some.injEq, Prod.mk.injEq] at h
          obtain ⟨hv, hr⟩ := h
          subst hr
          subst hsp
          refine ⟨[' ', c2], by simp, Or.inr ⟨c2, rfl, hdig, hv, by omega⟩,
            by omega, ?_⟩
          have := digVal_le_9 hdig
          omega
        · exact Option.noConfusion h

theorem parseWs1_sound {cs r : List Char}
    (h : parseWs1 cs = some r) :
    ∃ wt, cs = wt ++ r ∧ wt ≠ [] ∧ ∀ c ∈ wt, isPyWs c = true := by
  rcases cs with _ | ⟨c, rest⟩
  · exact Option.noConfusion h
  · simp only [parseWs1] at h
    split at h
    · rename_i hws
      simp only [Option.some.injEq] at h
      subst h
      refine ⟨c :: rest.takeWhile isPyWs, ?_, by simp, ?_⟩
      · simp [List.takeWhile_append_dropWhile]
      · intro x hx
        simp only [List.mem_cons] at hx
        rcases hx with hx | hx
        · subst hx; exact hws
        · exact List.mem_takeWhile_imp hx
    · exact Option.noConfusion h

theorem parseHour_sound {cs r : List Char} {v : Nat}
    (h : parseHour cs = some (v, r)) :
    ∃ ht, cs = ht ++ r ∧ numTok2 v ht ∧ v ≤ 23 := by
  rcases cs with _ | ⟨c1, _ | ⟨c2, rest⟩⟩
  · exact Option.noConfusion h
  · simp only [parseHour] at h
    split at h
    · rename_i hd
      simp only [Option.some.injEq, Prod.mk.injEq] at h
      obtain ⟨hv, hr⟩ := h
      subst hr
      refine ⟨[c1], by simp, Or.inr ⟨c1, rfl, hd, hv⟩, ?_⟩
      have := digVal_le_9 hd
      omega
    · exact Option.noConfusion h
  · simp only [parseHour] at h
    split at h
    · rename_i hd
      simp only [Bool.and_eq_true] at hd
      split at h
      · rename_i hv
        simp only [Option.some.injEq, Prod.mk.injEq] at h
        obtain ⟨hv', hr⟩ := h
        subst hr
        exact ⟨[c1, c2], by simp,
          Or.inl ⟨c1, c2, rfl, hd.1, hd.2, hv'⟩, by omega⟩
      · exact Option.noConfusion h
    · split at h
      · rename_i hd
        simp only [Option.some.injEq, Prod.mk.injEq] at h
        obtain ⟨hv, hr⟩ := h
        subst hr
        refine ⟨[c1], by simp, Or.inr ⟨c1, rfl, hd, hv⟩, ?_⟩
        have := digVal_le_9 hd
        omega
      · exact Option.noConfusion h

theorem parseMinEnd_sound {cs : List Char} {v : Nat}
    (h : parseMinEnd cs = some v) :
    numTok2 v cs ∧ v ≤ 59 := by
  rcases cs with _ | ⟨c1, _ | ⟨c2, _ | ⟨c3, rest⟩⟩⟩
  · exact Option.noConfusion h
  · simp only [parseMinEnd] at h
    split at h
    · rename_i hd
      simp only [Option.some.injEq] at h
      refine ⟨Or.inr ⟨c1, rfl, hd, h⟩, ?_⟩
      have := digVal_le_9 hd
      omega
    · exact Option.noConfusion h
  · simp only [parseMinEnd] at h
    split at h
    · rename_i hd
      simp only [Bool.and_eq_true] at hd
      split at h
      · rename_i hv
        simp only [Option.some.injEq] at h
        exact ⟨Or.inl ⟨c1, c2, rfl, hd.1, hd.2, h⟩, by omega⟩
      · exact Option.noConfusion h
    · exact Option.noConfusion h
  · exact Option.noConfusion h

/-! ### Completeness of the component parsers -/

theorem parseYear4_complete {yt : List Char} {y : Nat} (ht : year4Tok y yt)
    (r : List Char) : parseYear4 (yt ++ r) = some (y, r) := by
  obtain ⟨c1, c2, c3, c4, hteq, h1, h2, h3, h4, hv⟩ := ht
  subst hteq
  simp [parseYear4, h1, h2, h3, h4, hv]

theorem parseMonth_complete {mt : List Char} {v : Nat} (ht : numTok2 v mt)
    (hv1 : 1 ≤ v) (hv2 : v ≤ 12) (r : List Char) :
    parseMonth (mt ++ '-' :: r) = some (v, '-' :: r) := by
  rcases ht with ⟨c1, c2, hteq, h1, h2, hv⟩ | ⟨c, hteq, hc, hv⟩
  · subst hteq
    simp only [List.cons_append, List.nil_append, parseMonth, h1, h2,
      Bool.and_self, if_pos]
    rw [hv]
    simp [hv1, hv2]
  · subst hteq
    have hnd : ('-').isDigit = false := by decide
    simp only [List.cons_append, List.nil_append, parseMonth, hc, hnd,
      Bool.and_false, Bool.false_and, if_neg, Bool.false_eq_true,
      not_false_iff]
    rw [hv]
    simp [hv1]

theorem parseDay_complete {dt : List Char} {v : Nat} (ht : dayTok v dt)
    (hv1 : 1 ≤ v) (hv2 : v ≤ 31) {w : Char} (hw : isPyWs w = true)
    (r : List Char) : parseDay (dt ++ w :: r) = some (v, w :: r) := by
  have hwd : w.isDigit = false := ws_not_digit hw
  rcases ht with (⟨c1, c2, hteq, h1, h2, hv⟩ | ⟨c, hteq, hc, hv⟩) |
    ⟨c, hteq, hc, hv, hge⟩
  · subst hteq
    simp only [List.cons_append, List.nil_append, parseDay, h1, h2,
      Bool.and_self, if_pos]
    rw [hv]
    simp [hv1, hv2]
  · subst hteq
    simp only [List.cons_append, List.nil_append, parseDay, hc, hwd,
      Bool.and_false, Bool.false_and, if_neg, Bool.false_eq_true,
      not_false_iff]
    rw [hv]
    simp [hv1]
  · subst hteq
    have hsp : (' ').isDigit = false := by decide
    simp only [List.cons_append, List.nil_append, parseDay, hsp, hc,
      Bool.false_and, Bool.and_false, if_neg, Bool.false_eq_true,
      not_false_iff]
    rw [hv]
    simp [hv1]

theorem dropWhile_ws_append {ws : List Char}
    (hws : ∀ c ∈ ws, isPyWs c = true) {h : Char} (hh : isPyWs h = false)
    (t : List Char) : List.dropWhile isPyWs (ws ++ h :: t) = h :: t := by
  induction ws with
  | nil => simp [List.dropWhile, hh]
  | cons a as ih =>
    have ha : isPyWs a = true := hws a (by simp)
    simp only [List.cons_append, List.dropWhile, ha]
    exact ih (fun c hc => hws c (by simp [hc]))

theorem parseWs1_complete {wt : List Char} (hne : wt ≠ [])
    (hws : ∀ c ∈ wt, isPyWs c = true) {h : Char} (hh : isPyWs h = false)
    (t : List Char) : parseWs1 (wt ++ h :: t) = some (h :: t) := by
  rcases wt with _ | ⟨a, as⟩
  · exact absurd rfl hne
  · have ha : isPyWs a = true := hws a (by simp)
    simp only [List.cons_append, parseWs1, ha, if_pos]
    rw [dropWhile_ws_append (fun c hc => hws c (by simp [hc])) hh]

theorem parseHour_complete {ht : List Char} {v : Nat} (hn : numTok2 v ht)
    (hv : v ≤ 23) (r : List Char) :
    parseHour (ht ++ ':' :: r) = some (v, ':' :: r) := by
  rcases hn with ⟨c1, c2, hteq, h1, h2, hvv⟩ | ⟨c, hteq, hc, hvv⟩
  · subst hteq
    simp only [List.cons_append, List.nil_append, parseHour, h1, h2,
      Bool.and_self, if_pos]
    rw [hvv]
    simp [hv]
  · subst hteq
    have hnd : (':').isDigit = false := by decide
    simp only [List.cons_append, List.nil_append, parseHour, hc, hnd,
      Bool.and_false, Bool.false_and, if_neg, Bool.false_eq_true,
      not_false_iff]
    rw [hvv]
    simp

theorem parseMinEnd_complete {mit : List Char} {v : Nat} (hn : numTok2 v mit)
    (hv : v ≤ 59) : parseMinEnd mit = some v := by
  rcases hn with ⟨c1, c2, hteq, h1, h2, hvv⟩ | ⟨c, hteq, hc, hvv⟩
  · subst hteq
    simp only [parseMinEnd, h1, h2, Bool.and_self, if_pos]
    rw [hvv]
    simp [hv]
  · subst hteq
    simp only [parseMinEnd, hc, if_pos]
    rw [hvv]

/-! ### The full `strptime` characterization -/

theorem numTok2_head {v : Nat} {tok : List Char} (h : numTok2 v tok) :
    ∃ c cs', tok = c :: cs' ∧ c.isDigit = true := by
  rcases h with ⟨c1, c2, hteq, h1, _, _⟩ | ⟨c, hteq, hc, _⟩
  · exact ⟨c1, [c2], hteq, h1⟩
  · exact ⟨c, [], hteq, hc⟩

theorem year4Tok_le {y : Nat} {yt : List Char} (h : year4Tok y yt) :
    y ≤ 9999 := by
  obtain ⟨c1, c2, c3, c4, _, h1, h2, h3, h4, hv⟩ := h
  have := digVal_le_9 h1
  have := digVal_le_9 h2
  have := digVal_le_9 h3
  have := digVal_le_9 h4
  omega

theorem daysInMonth_le_31 (y m : Nat) : daysInMonth y m ≤ 31 := by
  unfold daysInMonth
  split
  · split <;> omega
  · split <;> omega

theorem expectChar_sound {c : Char} {cs r : List Char}
    (h : expectChar c cs = some r) : cs = c :: r := by
  rcases cs with _ | ⟨x, rest⟩
  · exact Option.noConfusion h
  · simp only [expectChar] at h
    split at h
    · rename_i hx
      simp only [Option.some.injEq] at h
      subst h
      subst hx
      rfl
    · exact Option.noConfusion h

theorem expectChar_complete (c : Char) (r : List Char) :
    expectChar c (c :: r) = some r := by
  simp [expectChar]

theorem strptime_sound {cs : List Char} {t : DateTime}
    (h : strptimeYmdHM cs = some t) : DTGrammar cs t := by
  unfold strptimeYmdHM at h
  rcases hpy : parseYear4 cs with _ | ⟨y, r1⟩ <;> rw [hpy] at h
  · exact Option.noConfusion h
  · simp only [Option.some_bind] at h
    rcases he1 : expectChar '-' r1 with _ | r2 <;> rw [he1] at h
    · exact Option.noConfusion h
    · simp only [Option.some_bind] at h
      rcases hpm : parseMonth r2 with _ | ⟨m, r3⟩ <;> rw [hpm] at h
      · exact Option.noConfusion h
      · simp only [Option.some_bind] at h
        rcases he2 : expectChar '-' r3 with _ | r4 <;> rw [he2] at h
        · exact Option.noConfusion h
        · simp only [Option.some_bind] at h
          rcases hpd : parseDay r4 with _ | ⟨d, r5⟩ <;> rw [hpd] at h
          · exact Option.noConfusion h
          · simp only [Option.some_bind] at h
            rcases hpw : parseWs1 r5 with _ | r6 <;> rw [hpw] at h
            · exact Option.noConfusion h
            · simp only [Option.some_bind] at h
              rcases hph : parseHour r6 with _ | ⟨hr, r7⟩ <;> rw [hph] at h
              · exact Option.noConfusion h
              · simp only [Option.some_bind] at h
                rcases he3 : expectChar ':' r7 with _ | r8 <;> rw [he3] at h
                · exact Option.noConfusion h
                · simp only [Option.some_bind] at h
                  rcases hpmi : parseMinEnd r8 with _ | mi <;> rw [hpmi] at h
                  · exact Option.noConfusion h
                  · simp only [Option.some_bind] at h
                    split at h
                    · rename_i hguard
                      simp only [Option.some.injEq] at h
                      subst h
                      obtain ⟨yt, hcs1, hyt⟩ := parseYear4_sound hpy
                      obtain ⟨mt, hcs2, hmt, hm1, hm2⟩ := parseMonth_sound hpm
                      obtain ⟨dt', hcs3, hdt, hdd1, _⟩ := parseDay_sound hpd
                      obtain ⟨wt, hcs4, hwne, hwall⟩ := parseWs1_sound hpw
                      obtain ⟨ht', hcs5, hht, hh23⟩ := parseHour_sound hph
                      obtain ⟨hmit, hmi59⟩ := parseMinEnd_sound hpmi
                      have hr1 : r1 = '-' :: r2 := expectChar_sound he1
                      have hr3 : r3 = '-' :: r4 := expectChar_sound he2
                      have hr7 : r7 = ':' :: r8 := expectChar_sound he3
                      refine ⟨⟨hguard.1, year4Tok_le hyt, hm1, hm2,
                        hdd1, hguard.2, hh23, hmi59⟩,
                        yt, mt, dt', wt, ht', r8,
                        hyt, hmt, hdt, hwne, hwall, hht, hmit, ?_⟩
                      subst hcs1
                      subst hr1
                      subst hcs2
                      subst hr3
                      subst hcs3
                      subst hcs4
                      subst hcs5
                      subst hr7
                      simp [List.append_assoc]
                    · exact Option.noConfusion h

theorem strptime_complete {cs : List Char} {t : DateTime}
    (h : DTGrammar cs t) : strptimeYmdHM cs = some t := by
  obtain ⟨⟨hy1, hy2, hm1, hm2, hd1, hd2, hh23, hmi59⟩,
    yt, mt, dt', wt, ht', mit, hyt, hmt, hdt, hwne, hwall, hht, hmit, hcs⟩ := h
  subst hcs
  obtain ⟨w, wt', rfl⟩ : ∃ w wt', wt = w :: wt' := by
    rcases wt with _ | ⟨w, wt'⟩
    · exact absurd rfl hwne
    · exact ⟨w, wt', rfl⟩
  have hw : isPyWs w = true := hwall w (by simp)
  have hwall' : ∀ c ∈ wt', isPyWs c = true :=
    fun c hc => hwall c (by simp [hc])
  obtain ⟨hc0, hcs0, hhteq, hc0d⟩ := numTok2_head hht
  have hd31 : t.d ≤ 31 := le_trans hd2 (daysInMonth_le_31 _ _)
  unfold strptimeYmdHM
  rw [parseYear4_complete hyt]
  simp only [Option.some_bind]
  rw [expectChar_complete]
  simp only [Option.some_bind]
  rw [parseMonth_complete hmt hm1 hm2]
  simp only [Option.some_bind]
  rw [expectChar_complete]
  simp only [Option.some_bind]
  have hday :
      dt' ++ ((w :: wt') ++ (ht' ++ ':' :: mit)) =
      dt' ++ w :: (wt' ++ (ht' ++ ':' :: mit)) := by
    simp
  rw [hday, parseDay_complete hdt hd1 hd31 hw]
  simp only [Option.some_bind]
  have hws :
      w :: (wt' ++ (ht' ++ ':' :: mit)) =
      (w :: wt') ++ (hc0 :: (hcs0 ++ ':' :: mit)) := by
    simp [hhteq]
  rw [hws, parseWs1_complete hwne hwall (digit_not_ws hc0d)]
  simp only [Option.some_bind]
  have hhour : hc0 :: (hcs0 ++ ':' :: mit) = ht' ++ ':' :: mit := by
    simp [hhteq]
  rw [hhour, parseHour_complete hht hh23]
  simp only [Option.some_bind]
  rw [expectChar_complete]
  simp only [Option.some_bind]
  rw [parseMinEnd_complete hmit hmi59]
  simp only [Option.some_bind]
  rw [if_pos ⟨hy1, hd2⟩]

/-- The two directions in one statement: `strptime` succeeds with value `t`
exactly on the words of the grammar. -/
theorem strptime_iff (cs : List Char) (t : DateTime) :
    strptimeYmdHM cs = some t ↔ DTGrammar cs t :=
  ⟨strptime_sound, strptime_complete⟩

theorem DTGrammar_ne_nil {t : DateTime} : ¬ DTGrammar [] t := by
  rintro ⟨_, yt, mt, dt', wt, ht', mit, hyt, _, _, _, _, _, _, hcs⟩
  obtain ⟨c1, c2, c3, c4, rfl, _⟩ := hyt
  simp at hcs

theorem parse_iso_ok_iff (s : String) (t : DateTime) :
    parse_iso_datetime s = .ok t ↔ DTGrammar (pyStrip s).data t := by
  unfold parse_iso_datetime
  dsimp only
  split
  · rename_i hemp
    constructor
    · intro h
      exact Except.noConfusion h
    · intro hg
      rw [List.isEmpty_iff] at hemp
      rw [hemp] at hg
      exact absurd hg DTGrammar_ne_nil
  · split
    · rename_i dt heq
      constructor
      · intro h
        simp only [Except.ok.injEq] at h
        subst h
        exact strptime_sound heq
      · intro hg
        have h2 := strptime_complete hg
        rw [heq] at h2
        simp only [Option.some.injEq] at h2
        rw [h2]
    · rename_i heq
      constructor
      · intro h
        exact Except.noConfusion h
      · intro hg
        have h2 := strptime_complete hg
        rw [heq] at h2
        exact Option.noConfusion h2

theorem parse_iso_error_msg {s e : String}
    (h : parse_iso_datetime s = .error e) :
    e = "empty datetime" ∨
    e = "invalid datetime format (expected \x27YYYY-MM-DD HH:MM\x27): "
      ++ pyStrip s := by
  unfold parse_iso_datetime at h
  dsimp only at h
  split at h
  · simp only [Except.error.injEq] at h
    exact Or.inl h.symm
  · split at h
    · exact Except.noConfusion h
    · simp only [Except.error.injEq] at h
      exact Or.inr h.symm

/-! ### The canonical render satisfies the grammar -/

theorem pad2C_numTok2 {v : Nat} (h : v ≤ 99) : numTok2 v (pad2C v) := by
  refine Or.inl ⟨dChar (v / 10), dChar (v % 10), rfl, ?_, ?_, ?_⟩
  · exact dChar_isDigit (by omega)
  · exact dChar_isDigit (by omega)
  · rw [digVal_dChar (by omega), digVal_dChar (by omega)]
    omega

theorem yearChars_year4Tok {y : Nat} (h1 : 1000 ≤ y) (h2 : y ≤ 9999) :
    year4Tok y (yearChars y) := by
  unfold yearChars
  rw [if_neg (by omega), if_neg (by omega), if_neg (by omega)]
  refine ⟨dChar (y / 1000 % 10), dChar (y / 100 % 10), dChar (y / 10 % 10),
    dChar (y % 10), rfl, dChar_isDigit (by omega), dChar_isDigit (by omega),
    dChar_isDigit (by omega), dChar_isDigit (by omega), ?_⟩
  rw [digVal_dChar (by omega), digVal_dChar (by omega),
    digVal_dChar (by omega), digVal_dChar (by omega)]
  omega

theorem render_grammar {t : DateTime} (hv : validDT t) (hy : 1000 ≤ t.y) :
    DTGrammar (pyStrftime t).data t := by
  obtain ⟨hy1, hy2, hm1, hm2, hd1, hd2, hh23, hmi59⟩ := hv
  have hm99 : t.m ≤ 99 := by omega
  have hd99 : t.d ≤ 99 := le_trans hd2 (le_trans (daysInMonth_le_31 _ _) (by omega))
  refine ⟨⟨hy1, hy2, hm1, hm2, hd1, hd2, hh23, hmi59⟩,
    yearChars t.y, pad2C t.m, pad2C t.d, [' '], pad2C t.h, pad2C t.mi,
    yearChars_year4Tok hy hy2, pad2C_numTok2 hm99,
    Or.inl (pad2C_numTok2 hd99), by simp, ?_, pad2C_numTok2 (by omega),
    pad2C_numTok2 (by omega), ?_⟩
  · intro c hc
    simp only [List.mem_singleton] at hc
    subst hc
    decide
  · simp [pyStrftime, List.append_assoc]

/-- On canonical input the parser recovers the rendered datetime. -/
theorem parse_render {s : String} {t : DateTime} (hv : validDT t)
    (hy : 1000 ≤ t.y) (hs : pyStrip s = pyStrftime t) :
    parse_iso_datetime s = .ok t := by
  rw [parse_iso_ok_iff, hs]
  exact render_grammar hv hy

/-! ### Small string helpers for error messages -/

theorem append_ne_empty_left {a : String} (b : String) (h : a.data ≠ []) :
    a ++ b ≠ "" := by
  intro he
  have hd : (a ++ b).data = ([] : List Char) := by rw [he]
  rw [String.data_append, List.append_eq_nil] at hd
  exact h hd.1

theorem append3_ne_empty_left {a : String} (f b : String) (h : a.data ≠ []) :
    a ++ f ++ b ≠ "" := by
  apply append_ne_empty_left
  rw [String.data_append]
  intro hd
  rw [List.append_eq_nil] at hd
  exact h hd.1

/-! ### The accumulator loops of `parse_csv_files` -/

theorem parseRowsLoop_acc (p : String) (n : Nat) (rows : List Row)
    (v : List Flight) (e : List String) :
    parseRowsLoop p n rows v e =
      (v ++ (parseRowsLoop p n rows [] []).1,
       e ++ (parseRowsLoop p n rows [] []).2) := by
  induction rows generalizing n v e with
  | nil => simp [parseRowsLoop]
  | cons r rest ih =>
    simp only [parseRowsLoop]
    rcases hvr : validate_row r p n with ⟨fl?, msg⟩
    rcases fl? with _ | fl
    · dsimp only
      rw [ih (n + 1) v (e ++ [errLine p n msg r]),
        ih (n + 1) [] ([] ++ [errLine p n msg r])]
      simp
    · dsimp only
      rw [ih (n + 1) (v ++ [fl]) e, ih (n + 1) ([] ++ [fl]) []]
      simp

theorem parseRowsLoop_count (p : String) (n : Nat) (rows : List Row) :
    (parseRowsLoop p n rows [] []).1.length +
    (parseRowsLoop p n rows [] []).2.length = rows.length := by
  induction rows generalizing n with
  | nil => simp [parseRowsLoop]
  | cons r rest ih =>
    simp only [parseRowsLoop]
    rcases hvr : validate_row r p n with ⟨fl?, msg⟩
    rcases fl? with _ | fl
    · dsimp only
      rw [parseRowsLoop_acc p (n + 1) rest [] ([] ++ [errLine p n msg r])]
      have := ih (n + 1)
      simp only [List.length_append, List.length_cons, List.nil_append,
        List.length_nil]
      omega
    · dsimp only
      rw [parseRowsLoop_acc p (n + 1) rest ([] ++ [fl]) []]
      have := ih (n + 1)
      simp only [List.length_append, List.length_cons, List.nil_append,
        List.length_nil]
      omega

theorem parseSrcsLoop_acc (srcs : List Src) (v : List Flight)
    (e : List String) :
    parseSrcsLoop srcs v e =
      (v ++ srcs.flatMap srcValidOf, e ++ srcs.flatMap srcErrsOf) := by
  induction srcs generalizing v e with
  | nil => simp [parseSrcsLoop]
  | cons s rest ih =>
    rcases s with ⟨p, rows⟩ | p | ⟨p, pre, msg⟩
    · simp only [parseSrcsLoop]
      rw [parseRowsLoop_acc]
      rw [ih]
      simp [srcValidOf, srcErrsOf, List.append_assoc]
    · simp only [parseSrcsLoop]
      rw [ih]
      simp [srcValidOf, srcErrsOf, List.append_assoc]
    · simp only [parseSrcsLoop]
      rw [parseRowsLoop_acc]
      rw [ih]
      simp [srcValidOf, srcErrsOf, List.append_assoc]

/-! ### The equality-filter stage -/

theorem applyEqFilters_eq_filter (recs : List Rec)
    (filt : List (String × String)) :
    applyEqFilters recs filt =
      recs.filter (fun r =>
        filt.all (fun kv => (recGet r kv.1).toLower == kv.2.toLower)) := by
  induction filt generalizing recs with
  | nil => simp [applyEqFilters]
  | cons kv rest ih =>
    rcases kv with ⟨k, v⟩
    simp only [applyEqFilters]
    rw [ih, List.filter_filter]
    congr 1
    funext r
    simp [List.all_cons, Bool.and_comm]

/-! ### The `run_queries` loop -/

theorem runQueriesLoop_spec {flights : List Rec} {qs : List Query} {i : Nat}
    {rs : List QueryResult} (h : runQueriesLoop flights qs i = .ok rs) :
    rs.length = qs.length ∧
    ∀ j, j < qs.length → ∃ q matched,
      qs[j]? = some q ∧ apply_filters flights q = .ok matched ∧
      rs[j]? = some ⟨qNameOf q (i + j), matched.length, matched⟩ := by
  induction qs generalizing i rs with
  | nil =>
    simp only [runQueriesLoop] at h
    simp only [Except.ok.injEq] at h
    subst h
    exact ⟨rfl, fun j hj => absurd hj (by simp)⟩
  | cons q rest ih =>
    simp only [runQueriesLoop] at h
    rcases haf : apply_filters flights q with e | matched <;> rw [haf] at h
    · exact Except.noConfusion h
    · rcases hrec : runQueriesLoop flights rest (i + 1) with e | rs' <;>
        rw [hrec] at h
      · exact Except.noConfusion h
      · simp only [Except.map, Except.ok.injEq] at h
        subst h
        obtain ⟨hlen, hidx⟩ := ih hrec
        refine ⟨by simp [hlen], ?_⟩
        intro j hj
        rcases j with _ | j
        · exact ⟨q, matched, by simp, haf, by simp⟩
        · obtain ⟨q', matched', hq', haf', hr'⟩ :=
            hidx j (by simpa using hj)
          refine ⟨q', matched', by simpa using hq', haf', ?_⟩
          have : i + 1 + j = i + (j + 1) := by omega
          rw [this] at hr'
          simpa using hr'

/-! ### The claims -/

/-- C10: for every row (a mapping from field names to strings or `None`)
and every source locator, `validate_row` returns normally with either
`(record, "")` on acceptance or `(None, message)` with a non-empty message
on rejection; every internal failure (datetime and price parse errors) is
caught and returned as a value, never propagated. -/
theorem claim10_validate_row_total (row : Row) (file : String) (n : Nat) :
    (∃ fl, validate_row row file n = (some fl, "")) ∨
    (∃ msg, validate_row row file n = (none, msg) ∧ msg ≠ "") := by
  unfold validate_row
  dsimp only
  split
  · exact Or.inr ⟨_, rfl, by apply append3_ne_empty_left; decide⟩
  · split
    · split
      · split
        · split
          · exact Or.inr ⟨_, rfl, by apply append_ne_empty_left; decide⟩
          · split
            · exact Or.inr ⟨_, rfl, by apply append_ne_empty_left; decide⟩
            · split
              · exact Or.inr ⟨_, rfl, by decide⟩
              · split
                · exact Or.inr ⟨_, rfl, by decide⟩
                · split
                  · exact Or.inr ⟨_, rfl, by decide⟩
                  · exact Or.inl ⟨_, rfl⟩
        · exact Or.inr ⟨_, rfl, by decide⟩
      · exact Or.inr ⟨_, rfl, by decide⟩
    · exact Or.inr ⟨_, rfl, by decide⟩

/-- C2: whenever some required field is absent, `None`, or whitespace-only,
`validate_row` rejects the row naming a missing required field, namely the
first one in the fixed `REQUIRED_FIELDS` order (encoded by `List.find?`),
and the reported reason is that presence message — no later rule
contributes. -/
theorem claim2_missing_required_field (row : Row) (file : String) (n : Nat)
    (h : ∃ f ∈ REQUIRED_FIELDS, fieldMissing row f = true) :
    ∃ g, REQUIRED_FIELDS.find? (fieldMissing row) = some g ∧
      g ∈ REQUIRED_FIELDS ∧ fieldMissing row g = true ∧
      validate_row row file n =
        (none, "missing required field \x27" ++ g ++ "\x27") := by
  obtain ⟨f, hf, hmiss⟩ := h
  have hsome : (REQUIRED_FIELDS.find? (fieldMissing row)).isSome := by
    rw [List.find?_isSome]
    exact ⟨f, hf, hmiss⟩
  rcases hfind : REQUIRED_FIELDS.find? (fieldMissing row) with _ | g
  · rw [hfind] at hsome
    exact absurd hsome (by simp)
  · refine ⟨g, rfl, List.mem_of_find?_eq_some hfind,
      List.find?_some hfind, ?_⟩
    unfold validate_row
    dsimp only
    rw [hfind]

/-- C2 witness: the repository test's row with an empty `origin` is
rejected with the message naming `origin`. -/
theorem claim2_missing_required_field_witness :
    ∃ g, REQUIRED_FIELDS.find?
        (fieldMissing
          [("flight_id", some "BA200"), ("origin", some ""),
           ("destination", some "LHR"),
           ("departure_datetime", some "2025-11-21 09:00"),
           ("arrival_datetime", some "2025-11-21 19:00"),
           ("price", some "299.50")]) = some g ∧
      g ∈ REQUIRED_FIELDS ∧
      fieldMissing
          [("flight_id", some "BA200"), ("origin", some ""),
           ("destination", some "LHR"),
           ("departure_datetime", some "2025-11-21 09:00"),
           ("arrival_datetime", some "2025-11-21 19:00"),
           ("price", some "299.50")] g = true ∧
      validate_row
          [("flight_id", some "BA200"), ("origin", some ""),
           ("destination", some "LHR"),
           ("departure_datetime", some "2025-11-21 09:00"),
           ("arrival_datetime", some "2025-11-21 19:00"),
           ("price", some "299.50")] "sample" 2 =
        (none, "missing required field \x27" ++ g ++ "\x27") :=
  claim2_missing_required_field _ "sample" 2 ⟨"origin", by decide, by decide⟩

/-- C4: once the earlier rules pass and both datetimes parse, the row is
rejected with exactly the message `arrival_datetime must be after
departure_datetime` precisely when the parsed arrival is equal to or
earlier than the parsed departure; a strictly later arrival (by as little
as one minute) never produces this rejection. -/
theorem claim4_temporal_ordering (row : Row) (file : String) (n : Nat)
    (dp ar : DateTime)
    (hnf : REQUIRED_FIELDS.find? (fieldMissing row) = none)
    (hfid : fidOk (pyStrip (getStr row "flight_id")) = true)
    (horig : iataOk (pyStrip (getStr row "origin")) = true)
    (hdest : iataOk (pyStrip (getStr row "destination")) = true)
    (hdep : parse_iso_datetime (getStr row "departure_datetime") = .ok dp)
    (harr : parse_iso_datetime (getStr row "arrival_datetime") = .ok ar) :
    validate_row row file n =
        (none, "arrival_datetime must be after departure_datetime") ↔
      ar.key ≤ dp.key := by
  simp only [validate_row, hnf, hfid, horig, hdest, hdep, harr,
    eq_self_iff_true, if_true]
  constructor
  · intro h
    by_contra hlt
    rw [if_neg hlt] at h
    rcases hp : parsePyFloat (pyStrip (getStr row "price")) with _ | p <;>
      rw [hp] at h
    · dsimp only at h
      simp only [Prod.mk.injEq] at h
      exact absurd h.2 (by decide)
    · dsimp only at h
      split at h <;> simp only [Prod.mk.injEq] at h
      · exact absurd h.2 (by decide)
      · exact Option.noConfusion h.1
  · intro hle
    rw [if_pos hle]

/-- C4 witness: a one-minute difference is not rejected by the temporal
rule (the iff instantiated at a concrete row with arrival one minute after
departure reduces to `false ↔ false`). -/
theorem claim4_temporal_ordering_witness :
    (validate_row
        [("flight_id", some "AA100"), ("origin", some "JFK"),
         ("destination", some "LAX"),
         ("departure_datetime", some "2025-11-20 08:00"),
         ("arrival_datetime", some "2025-11-20 08:01"),
         ("price", some "199.99")] "sample" 2 =
      (none, "arrival_datetime must be after departure_datetime")) ↔
    (DateTime.key ⟨2025, 11, 20, 8, 1⟩ ≤ DateTime.key ⟨2025, 11, 20, 8, 0⟩) :=
  claim4_temporal_ordering _ "sample" 2 ⟨2025, 11, 20, 8, 0⟩
    ⟨2025, 11, 20, 8, 1⟩ (by decide) (by decide) (by decide) (by decide)
    (by rfl) (by rfl)

/-- C5 (amended): whenever `validate_row` accepts, the error slot is empty
and the stored price is exactly the parsed float of the trimmed `price`
field, and that float is NOT `<= 0` in Python's float ordering — i.e. it
is positive, `+inf`, or a NaN (which the `price <= 0` guard lets
through); consequently `0`, `-5` and non-numeric text are rejected, `0.01`
is accepted. -/
theorem claim5_price_guard (row : Row) (file : String) (n : Nat)
    (fl : Flight) (e : String)
    (h : validate_row row file n = (some fl, e)) :
    e = "" ∧ ∃ p, parsePyFloat (pyStrip (getStr row "price")) = some p ∧
      fl.price = p ∧ p.leZero = false := by
  unfold validate_row at h
  dsimp only at h
  split at h
  · simp at h
  · split at h
    · split at h
      · split at h
        · split at h
          · simp at h
          · split at h
            · simp at h
            · split at h
              · simp at h
              · split at h
                · simp at h
                · rename_i price hp
                  split at h
                  · simp at h
                  · rename_i hlez
                    simp only [Prod.mk.injEq, Option.some.injEq] at h
                    obtain ⟨hfl, he⟩ := h
                    refine ⟨he.symm, price, hp, ?_, ?_⟩
                    · rw [← hfl]
                    · rw [Bool.not_eq_true] at hlez
                      exact hlez
        · simp at h
      · simp at h
    · simp at h

/-- C5 witness: the row with price `0.01` is accepted and stores the
positive parsed value `1/100`. -/
theorem claim5_price_guard_witness :
    ("" : String) = "" ∧
    ∃ p, parsePyFloat (pyStrip (getStr
        [("flight_id", some "AA100"), ("origin", some "JFK"),
         ("destination", some "LAX"),
         ("departure_datetime", some "2025-11-20 08:00"),
         ("arrival_datetime", some "2025-11-20 11:00"),
         ("price", some "0.01")] "price")) = some p ∧
      (Flight.mk "AA100" "JFK" "LAX" "2025-11-20 08:00" "2025-11-20 11:00"
        (.num 1 100) []).price = p ∧ p.leZero = false :=
  claim5_price_guard _ "sample" 2 _ "" (by decide)

/-- C5 counterexample: the claim as stated fails on the code — the row
with price `nan` is accepted (Python's `float("nan") <= 0` is false), yet
the stored price is a NaN, which is NOT strictly greater than zero. -/
theorem claim5_nan_counterexample :
    validate_row
        [("flight_id", some "AA100"), ("origin", some "JFK"),
         ("destination", some "LAX"),
         ("departure_datetime", some "2025-11-20 08:00"),
         ("arrival_datetime", some "2025-11-20 11:00"),
         ("price", some "nan")] "sample" 2 =
      (some ⟨"AA100", "JFK", "LAX", "2025-11-20 08:00", "2025-11-20 11:00",
        .nan, []⟩, "") ∧
    PyFloat.gtZero .nan = false := by
  exact ⟨by decide, by decide⟩

/-- C6 (amended): on a row whose earlier rules pass, whose two datetime
fields trim to CANONICAL renders of valid datetimes with 4-digit years not
beginning in `0` (year ≥ 1000), with arrival after departure and a price
that parses positive, `validate_row` succeeds, the textual fields are the
trimmed originals, and both datetime fields re-render to exactly the
trimmed input (parse-then-format is the identity there).  For years below
1000 this fails: the platform `%Y` does not zero-pad (see the
counterexample). -/
theorem claim6_canonical_roundtrip (row : Row) (file : String) (n : Nat)
    (dp ap : DateTime) (p : PyFloat)
    (hnf : REQUIRED_FIELDS.find? (fieldMissing row) = none)
    (hfid : fidOk (pyStrip (getStr row "flight_id")) = true)
    (horig : iataOk (pyStrip (getStr row "origin")) = true)
    (hdest : iataOk (pyStrip (getStr row "destination")) = true)
    (hdpv : validDT dp) (hdpy : 1000 ≤ dp.y)
    (hdps : pyStrip (getStr row "departure_datetime") = pyStrftime dp)
    (hapv : validDT ap) (hapy : 1000 ≤ ap.y)
    (haps : pyStrip (getStr row "arrival_datetime") = pyStrftime ap)
    (hord : dp.key < ap.key)
    (hp : parsePyFloat (pyStrip (getStr row "price")) = some p)
    (hpos : p.leZero = false) :
    validate_row row file n =
      (some ⟨pyStrip (getStr row "flight_id"), pyStrip (getStr row "origin"),
        pyStrip (getStr row "destination"),
        pyStrip (getStr row "departure_datetime"),
        pyStrip (getStr row "arrival_datetime"), p, rowExtras row⟩, "") := by
  have hdep := parse_render hdpv hdpy hdps
  have harr := parse_render hapv hapy haps
  simp only [validate_row, hnf, hfid, horig, hdest, hdep, harr,
    eq_self_iff_true, if_true]
  rw [if_neg (by omega), hp]
  dsimp only
  rw [if_neg (by simp [hpos])]
  rw [hdps, haps]

/-- C6 witness: a fully canonical 2025 row round-trips identically. -/
theorem claim6_canonical_roundtrip_witness :
    validate_row
        [("flight_id", some "AA100"), ("origin", some "JFK"),
         ("destination", some "LAX"),
         ("departure_datetime", some "2025-11-20 08:00"),
         ("arrival_datetime", some "2025-11-20 11:00"),
         ("price", some "199.99")] "sample" 2 =
      (some ⟨pyStrip (getStr
          [("flight_id", some "AA100"), ("origin", some "JFK"),
           ("destination", some "LAX"),
           ("departure_datetime", some "2025-11-20 08:00"),
           ("arrival_datetime", some "2025-11-20 11:00"),
           ("price", some "199.99")] "flight_id"),
        pyStrip (getStr
          [("flight_id", some "AA100"), ("origin", some "JFK"),
           ("destination", some "LAX"),
           ("departure_datetime", some "2025-11-20 08:00"),
           ("arrival_datetime", some "2025-11-20 11:00"),
           ("price", some "199.99")] "origin"),
        pyStrip (getStr
          [("flight_id", some "AA100"), ("origin", some "JFK"),
           ("destination", some "LAX"),
           ("departure_datetime", some "2025-11-20 08:00"),
           ("arrival_datetime", some "2025-11-20 11:00"),
           ("price", some "199.99")] "destination"),
        pyStrip (getStr
          [("flight_id", some "AA100"), ("origin", some "JFK"),
           ("destination", some "LAX"),
           ("departure_datetime", some "2025-11-20 08:00"),
           ("arrival_datetime", some "2025-11-20 11:00"),
           ("price", some "199.99")] "departure_datetime"),
        pyStrip (getStr
          [("flight_id", some "AA100"), ("origin", some "JFK"),
           ("destination", some "LAX"),
           ("departure_datetime", some "2025-11-20 08:00"),
           ("arrival_datetime", some "2025-11-20 11:00"),
           ("price", some "199.99")] "arrival_datetime"),
        .num 19999 100,
        rowExtras
          [("flight_id", some "AA100"), ("origin", some "JFK"),
           ("destination", some "LAX"),
           ("departure_datetime", some "2025-11-20 08:00"),
           ("arrival_datetime", some "2025-11-20 11:00"),
           ("price", some "199.99")]⟩, "") :=
  claim6_canonical_roundtrip _ "sample" 2 ⟨2025, 11, 20, 8, 0⟩
    ⟨2025, 11, 20, 11, 0⟩ (.num 19999 100) (by decide) (by decide)
    (by decide) (by decide) (by decide) (by decide) (by decide) (by decide)
    (by decide) (by decide) (by decide) (by decide) (by decide)

/-- C6 counterexample: the claim as stated fails on the code — the row
with canonical departure `0999-01-01 00:00` (4-digit zero-padded year, as
§4.1 rule 4 requires) is accepted, but the re-rendered field is
`999-01-01 00:00`: the platform `%Y` conversion does not zero-pad the
year, so the round-trip is not the identity. -/
theorem claim6_year_pad_counterexample :
    validate_row
        [("flight_id", some "AA100"), ("origin", some "JFK"),
         ("destination", some "LAX"),
         ("departure_datetime", some "0999-01-01 00:00"),
         ("arrival_datetime", some "0999-01-01 01:00"),
         ("price", some "150.00")] "sample" 2 =
      (some ⟨"AA100", "JFK", "LAX", "999-01-01 00:00", "999-01-01 01:00",
        .num 15000 100, []⟩, "") ∧
    ("999-01-01 00:00" : String) ≠ pyStrip "0999-01-01 00:00" := by
  exact ⟨by decide, by decide⟩

/-- C1: the `departure_between` filter reads each record at key
`"departure"`, but records produced by `validate_row` (and the
repository's own `test_apply_filters` fixtures) store the departure under
`"departure_datetime"`.  On the test's own two records and its November
query the evaluator therefore raises `KeyError` instead of returning both
records with count 2 as the spec and the test expect. -/
theorem claim1_departure_between_keyerror :
    apply_filters
      ([[("flight_id", "AA100"), ("origin", "JFK"), ("destination", "LAX"),
         ("departure_datetime", "2025-11-20 08:00"),
         ("arrival_datetime", "2025-11-20 11:00")],
        [("flight_id", "UA400"), ("origin", "SFO"), ("destination", "SEA"),
         ("departure_datetime", "2025-11-23 07:30"),
         ("arrival_datetime", "2025-11-23 09:00")]] : List Rec)
      ⟨[], some ("2025-11-01 00:00", "2025-11-30 23:59"), none, none, none⟩ =
    .error "KeyError: departure" := by
  rfl

/-- C3 (amended): after trimming, `parse_iso_datetime` accepts EXACTLY the
`strptime` grammar `DTGrammar`: a 4-digit year ≥ 1, month 1–12 and hour
0–23 and minute 0–59 written with one or two digits (zero padding
optional), a day written with one or two digits or as a space followed by
a nonzero digit, valid for the month and year, and one or more whitespace
characters between day and hour.  `T`-separated or seconds-bearing strings
and the empty string remain rejected; the strictly zero-padded §4.1 forms
are the special case of the two-digit alternatives. -/
theorem claim3_datetime_grammar (s : String) (t : DateTime) :
    parse_iso_datetime s = .ok t ↔ DTGrammar (pyStrip s).data t :=
  parse_iso_ok_iff s t

/-- C3 counterexample: the claim as stated fails on the code — the
non-zero-padded hour `"2025-11-20 8:00"` is NOT in the spec's strict
`YYYY-MM-DD HH:MM` form, yet the code accepts it. -/
theorem claim3_lenient_counterexample :
    parse_iso_datetime "2025-11-20 8:00" = .ok ⟨2025, 11, 20, 8, 0⟩ ∧
    ¬ strictCanonical "2025-11-20 8:00" := by
  constructor
  · rfl
  · rintro ⟨t, _, heq⟩
    have h15 : (pyStrip "2025-11-20 8:00").data.length = 15 := by decide
    rw [heq] at h15
    simp [pad2C] at h15

/-- C7: with only equality filters present, `apply_filters` succeeds and
returns exactly the sublist (original order preserved) of records on which
EVERY `(field, expected)` pair matches under lowercased-text comparison,
with a missing field read as the empty text; so pairs conjoin,
matching is case-insensitive, and an unmatched filter yields `[]`. -/
theorem claim7_equality_filters (recs : List Rec)
    (filt : List (String × String)) (nm : Option String) :
    apply_filters recs ⟨filt, none, none, none, nm⟩ =
      .ok (recs.filter (fun r =>
        filt.all (fun kv => (recGet r kv.1).toLower == kv.2.toLower))) := by
  unfold apply_filters
  dsimp only
  rw [applyEqFilters_eq_filter]
  rfl

/-- C8 (amended): when `run_queries` completes, the result list has the
same length as the query list and its `j`-th entry is the evaluation of
the `j`-th query, named by the supplied name when that is present AND
non-empty, and by the 1-indexed placeholder `q<j+1>` when the name is
absent OR the empty string (Python's falsy `or`). -/
theorem claim8_batch_order (flights : List Rec) (qs : List Query)
    (rs : List QueryResult) (j : Nat)
    (h : run_queries flights qs = .ok rs) (hj : j < qs.length) :
    rs.length = qs.length ∧ ∃ q matched, qs[j]? = some q ∧
      apply_filters flights q = .ok matched ∧
      rs[j]? = some ⟨qNameOf q (j + 1), matched.length, matched⟩ := by
  obtain ⟨hlen, hidx⟩ := runQueriesLoop_spec h
  refine ⟨hlen, ?_⟩
  obtain ⟨q, matched, hq, ha, hr⟩ := hidx j hj
  refine ⟨q, matched, hq, ha, ?_⟩
  rwa [Nat.add_comm 1 j] at hr

/-- C8 witness: a one-query batch with the name `"alpha"` yields one
result carrying that name. -/
theorem claim8_batch_order_witness :
    ([⟨"alpha", 0, []⟩] : List QueryResult).length =
      ([⟨[], none, none, none, some "alpha"⟩] : List Query).length ∧
    ∃ q matched,
      ([⟨[], none, none, none, some "alpha"⟩] : List Query)[0]? = some q ∧
      apply_filters ([] : List Rec) q = .ok matched ∧
      ([⟨"alpha", 0, []⟩] : List QueryResult)[0]? =
        some ⟨qNameOf q (0 + 1), matched.length, matched⟩ :=
  claim8_batch_order [] [⟨[], none, none, none, some "alpha"⟩]
    [⟨"alpha", 0, []⟩] 0 (by rfl) (by decide)

/-- C8 counterexample: the claim as stated fails on the code — a query
whose `name` is present but equal to the empty string is reported under
the placeholder `q1`, not under its supplied (empty) name. -/
theorem claim8_empty_name_counterexample :
    run_queries ([] : List Rec) [⟨[], none, none, none, some ""⟩] =
      .ok [⟨"q1", 0, []⟩] ∧ ("q1" : String) ≠ "" := by
  exact ⟨by rfl, by decide⟩

/-- C9: the batch parse is the source-by-source concatenation of each
source's contribution (so a rejected row or an unreadable source never
aborts the batch, and records and errors appear in source-then-line
order); for a readable source the valid records and the error lines
partition its data rows; an unopenable source contributes no records and
exactly one synthetic error line; a source failing mid-read contributes
its prefix's outcomes plus one synthetic error line. -/
theorem claim9_batch_error_collection (srcs : List Src) (p : String)
    (rows pre : List Row) (msg : String) :
    parse_csv_files srcs =
      (srcs.flatMap srcValidOf, srcs.flatMap srcErrsOf) ∧
    (srcValidOf (.ok p rows)).length + (srcErrsOf (.ok p rows)).length =
      rows.length ∧
    srcValidOf (.notFound p) = [] ∧
    srcErrsOf (.notFound p) = ["file not found: " ++ p] ∧
    srcValidOf (.readError p pre msg) = srcValidOf (.ok p pre) ∧
    srcErrsOf (.readError p pre msg) =
      srcErrsOf (.ok p pre) ++ [p ++ ": error reading file: " ++ msg] := by
  refine ⟨?_, ?_, rfl, rfl, rfl, rfl⟩
  · unfold parse_csv_files
    rw [parseSrcsLoop_acc]
    simp
  · exact parseRowsLoop_count p 2 rows

end FlightTool
